import Mathlib

/-!
Verification of the error-handling core of `alfred-workflow-todoist`
(`src/lib/error.ts`), shallowly embedded in Lean 4.

JavaScript strings are modelled as `List Char`.  The collaborators that the
module consumes (`getCurrentCall` from `cli-args`, `clean-stack`,
`new-github-issue-url`, the workflow list, and the notification facility)
are modelled at their interfaces: `getCurrentCall` as an `Except`-valued
resolver (it throws outside a managed invocation), `clean-stack` as an
arbitrary total function on the optional stack string, and the two output
channels as an explicit `Output` value.
-/

namespace ErrorTs

/-- JavaScript strings are modelled as lists of characters. -/
abbrev Str := List Char

/-! ## Redaction (`.replace(/[0-9a-fA-F]{40}/gm, '<token hidden>')`) -/

/-- A character matched by the character class `[0-9a-fA-F]`. -/
def isHexDigit (c : Char) : Bool :=
  (48 ≤ c.toNat && c.toNat ≤ 57) || (97 ≤ c.toNat && c.toNat ≤ 102) ||
    (65 ≤ c.toNat && c.toNat ≤ 70)

/-- The literal replacement string `'<token hidden>'` from `errorDetail`. -/
def tokenHidden : Str := "<token hidden>".data

/-- Whether the regular expression `[0-9a-fA-F]{40}` matches at the start of
`s`, i.e. `s` begins with forty hex digits. -/
def hex40At (s : Str) : Bool :=
  (s.take 40).all isHexDigit && decide (40 ≤ s.length)

/-- Worker for `redact` with an explicit structural bound: each step either
drops one character or a forty-character match, so `s.length` steps always
suffice and the `0` case is unreachable from `redact`. -/
def redactGo (fuel : Nat) (s : Str) : Str :=
  match fuel, s with
  | _, [] => []
  | 0, s => s
  | fuel + 1, c :: cs =>
    if hex40At (c :: cs) then tokenHidden ++ redactGo fuel ((c :: cs).drop 40)
    else c :: redactGo fuel cs

/-- The global regex replacement
`s.replace(/[0-9a-fA-F]{40}/gm, '<token hidden>')`: scan left to right;
at the first position where forty hex digits start, splice in the
replacement and continue after the match (non-overlapping, leftmost-first,
exactly the semantics of a JavaScript global replace). -/
def redact (s : Str) : Str := redactGo s.length s

/-- `s` contains a substring matching `[0-9a-fA-F]{40}`: at some offset `i`
there are at least forty characters left and the next forty are all hex
digits. -/
def hasHexRun40 (s : Str) : Prop :=
  ∃ i, 40 ≤ (s.drop i).length ∧ ((s.drop i).take 40).all isHexDigit = true

/-- Executable scanner deciding the absence of a forty-hex-digit run. -/
def noRun40 (s : Str) : Bool :=
  match s with
  | [] => true
  | c :: cs => !hex40At (c :: cs) && noRun40 cs

/-- Length of the maximal all-hex-digit prefix of `s`. -/
def hexPrefixLen (s : Str) : Nat := (s.takeWhile isHexDigit).length

theorem hexPrefixLen_cons (c : Char) (s : Str) :
    hexPrefixLen (c :: s) = if isHexDigit c then hexPrefixLen s + 1 else 0 := by
  simp only [hexPrefixLen, List.takeWhile_cons]
  split <;> simp

theorem hexPrefixLen_le_length (s : Str) : hexPrefixLen s ≤ s.length := by
  induction s with
  | nil => simp [hexPrefixLen]
  | cons c cs ih =>
    rw [hexPrefixLen_cons]
    split <;> simp <;> omega

theorem take_all_of_hexPrefixLen {n : Nat} {s : Str} (h : n ≤ hexPrefixLen s) :
    (s.take n).all isHexDigit = true := by
  induction s generalizing n with
  | nil => simp [hexPrefixLen] at h; simp [h]
  | cons c cs ih =>
    cases n with
    | zero => simp
    | succ m =>
      rw [hexPrefixLen_cons] at h
      by_cases hc : isHexDigit c
      · simp only [hc, if_true] at h
        simp [List.take_succ_cons, hc, ih (Nat.le_of_succ_le_succ h)]
      · simp [hc] at h

theorem hexPrefixLen_ge_of_take_all {n : Nat} {s : Str}
    (h : (s.take n).all isHexDigit = true) (hn : n ≤ s.length) :
    n ≤ hexPrefixLen s := by
  induction s generalizing n with
  | nil => simp at hn; omega
  | cons c cs ih =>
    cases n with
    | zero => omega
    | succ m =>
      simp only [List.take_succ_cons, List.all_cons, Bool.and_eq_true] at h
      rw [hexPrefixLen_cons, if_pos h.1]
      have := ih h.2 (by simpa using hn)
      omega

theorem hex40At_true_iff (s : Str) :
    hex40At s = true ↔ 40 ≤ s.length ∧ (s.take 40).all isHexDigit = true := by
  simp [hex40At, and_comm]

theorem hex40At_false_of_hexPrefixLen (s : Str) (h : hexPrefixLen s ≤ 39) :
    hex40At s = false := by
  by_contra hne
  have ht : hex40At s = true := by
    cases hx : hex40At s
    · exact absurd hx hne
    · rfl
  rcases (hex40At_true_iff s).1 ht with ⟨hl, ha⟩
  have := hexPrefixLen_ge_of_take_all ha hl
  omega

theorem hexPrefixLen_le_39_of_hex40At_false (s : Str) (h : hex40At s = false) :
    hexPrefixLen s ≤ 39 := by
  by_contra hgt
  have h40 : 40 ≤ hexPrefixLen s := by omega
  have hl : 40 ≤ s.length := le_trans h40 (hexPrefixLen_le_length s)
  have ha := take_all_of_hexPrefixLen h40
  rw [(hex40At_true_iff s).2 ⟨hl, ha⟩] at h
  exact Bool.true_eq_false.mp h

theorem hex40At_eq_false_of_bad {s : Str} {c : Char} (hmem : c ∈ s.take 40)
    (hc : isHexDigit c = false) : hex40At s = false := by
  have : (s.take 40).all isHexDigit = false :=
    List.all_eq_false.2 ⟨c, hmem, by simp [hc]⟩
  simp [hex40At, this]

theorem mem_take_append_of_mem {d x : Str} {c : Char} (hmem : c ∈ d)
    (hd : d.length ≤ 40) : c ∈ (d ++ x).take 40 := by
  rw [List.take_append_eq_append_take, List.take_of_length_le hd]
  exact List.mem_append_left _ hmem

/-- Scanning over `a ++ x` succeeds when every suffix of `a` fails to start a
forty-hex match and `x` itself scans clean. -/
theorem noRun40_append {a x : Str}
    (hbreak : ∀ k, k < a.length → hex40At (a.drop k ++ x) = false)
    (hx : noRun40 x = true) : noRun40 (a ++ x) = true := by
  induction a with
  | nil => simpa using hx
  | cons c a' ih =>
    have h0 := hbreak 0 (by simp)
    simp only [List.drop_zero] at h0
    have hrest : noRun40 (a' ++ x) = true := by
      refine ih (fun k hk => ?_)
      have := hbreak (k + 1) (by simp; omega)
      simpa [List.drop_succ_cons] using this
    simp [noRun40, List.cons_append] at h0 ⊢
    exact ⟨by simpa [List.cons_append] using h0, hrest⟩

theorem tokenHidden_breaker (x : Str) :
    ∀ k, k < tokenHidden.length → hex40At (tokenHidden.drop k ++ x) = false := by
  intro k hk
  have hlen : (tokenHidden.drop k).length ≤ 40 := by
    simp [List.length_drop, tokenHidden]
    omega
  have hmem : '>' ∈ tokenHidden.drop k := by
    simp [tokenHidden] at hk
    interval_cases k <;> decide
  exact hex40At_eq_false_of_bad (mem_take_append_of_mem hmem hlen) (by decide)

theorem hexPrefixLen_tokenHidden_append (x : Str) :
    hexPrefixLen (tokenHidden ++ x) = 0 := by
  have : tokenHidden ++ x = '<' :: ("token hidden>".data ++ x) := by
    simp [tokenHidden]
  rw [this, hexPrefixLen_cons]
  have : isHexDigit '<' = false := by decide
  simp [this]

/-- Main redaction invariant, stated on the fuelled worker: the output scans
clean, and its maximal hex prefix is no longer than the input's and at most
39. -/
theorem redactGo_ok : ∀ fuel s, s.length ≤ fuel →
    noRun40 (redactGo fuel s) = true ∧
      hexPrefixLen (redactGo fuel s) ≤ min (hexPrefixLen s) 39 := by
  intro fuel
  induction fuel with
  | zero =>
    intro s hs
    have : s = [] := by cases s <;> simp_all
    subst this
    simp [redactGo, noRun40, hexPrefixLen]
  | succ n ih =>
    intro s hs
    match s with
    | [] => simp [redactGo, noRun40, hexPrefixLen]
    | c :: cs =>
      by_cases hg : hex40At (c :: cs) = true
      · have hred : redactGo (n + 1) (c :: cs) =
            tokenHidden ++ redactGo n ((c :: cs).drop 40) := by
          simp only [redactGo, if_pos hg]
        have hlen : ((c :: cs).drop 40).length ≤ n := by
          simp [List.length_drop] at *
          omega
        obtain ⟨h1, _⟩ := ih _ hlen
        constructor
        · rw [hred]
          exact noRun40_append (tokenHidden_breaker _) h1
        · rw [hred, hexPrefixLen_tokenHidden_append]
          omega
      · have hgf : hex40At (c :: cs) = false := by
          cases hx : hex40At (c :: cs)
          · rfl
          · exact absurd hx hg
        have hred : redactGo (n + 1) (c :: cs) = c :: redactGo n cs := by
          simp only [redactGo, if_neg hg]
        have hcs : cs.length ≤ n := by simpa using hs
        obtain ⟨h1, h2⟩ := ih cs hcs
        have hp39 : hexPrefixLen (c :: cs) ≤ 39 :=
          hexPrefixLen_le_39_of_hex40At_false _ hgf
        have hbound : hexPrefixLen (c :: redactGo n cs) ≤
            min (hexPrefixLen (c :: cs)) 39 := by
          rw [hexPrefixLen_cons] at hp39 ⊢
          rw [hexPrefixLen_cons (s := cs)]
          by_cases hc : isHexDigit c <;> simp [hc] at hp39 ⊢ <;> omega
        refine ⟨?_, by rwa [hred]⟩
        rw [hred]
        have hfalse : hex40At (c :: redactGo n cs) = false :=
          hex40At_false_of_hexPrefixLen _ (le_trans hbound (by omega))
        simp [noRun40, hfalse, h1]

theorem redact_ok (s : Str) :
    noRun40 (redact s) = true ∧
      hexPrefixLen (redact s) ≤ min (hexPrefixLen s) 39 :=
  redactGo_ok s.length s le_rfl

/-- A clean scan means no forty-hex-digit substring. -/
theorem noRun40_sound {s : Str} (h : noRun40 s = true) : ¬ hasHexRun40 s := by
  induction s with
  | nil =>
    rintro ⟨i, hlen, _⟩
    simp at hlen
  | cons c cs ih =>
    simp only [noRun40, Bool.and_eq_true, Bool.not_eq_true'] at h
    rintro ⟨i, hlen, hall⟩
    cases i with
    | zero =>
      simp only [List.drop_zero] at hlen hall
      rw [(hex40At_true_iff _).2 ⟨hlen, hall⟩] at h
      exact absurd h.1 (by simp)
    | succ j =>
      exact ih h.2 ⟨j, by simpa [List.drop_succ_cons] using hlen,
        by simpa [List.drop_succ_cons] using hall⟩

/-- Conversely, a failed scan exhibits a forty-hex-digit substring. -/
theorem noRun40_complete {s : Str} (h : noRun40 s = false) : hasHexRun40 s := by
  induction s with
  | nil => simp [noRun40] at h
  | cons c cs ih =>
    simp only [noRun40, Bool.and_eq_false_iff, Bool.not_eq_false'] at h
    rcases h with h | h
    · rcases (hex40At_true_iff _).1 h with ⟨hlen, hall⟩
      exact ⟨0, by simpa using hlen, by simpa using hall⟩
    · rcases ih h with ⟨i, hlen, hall⟩
      exact ⟨i + 1, by simpa [List.drop_succ_cons] using hlen,
        by simpa [List.drop_succ_cons] using hall⟩

theorem redactGo_id : ∀ fuel s, s.length ≤ fuel → noRun40 s = true →
    redactGo fuel s = s := by
  intro fuel
  induction fuel with
  | zero =>
    intro s hs _
    have : s = [] := by cases s <;> simp_all
    subst this
    rfl
  | succ n ih =>
    intro s hs h
    match s with
    | [] => rfl
    | c :: cs =>
      simp only [noRun40, Bool.and_eq_true, Bool.not_eq_true'] at h
      simp only [redactGo, if_neg (by simp [h.1] : ¬ hex40At (c :: cs) = true)]
      rw [ih cs (by simpa using hs) h.2]

/-- On a string with no forty-hex-digit run the replacement is the identity. -/
theorem redact_id {s : Str} (h : noRun40 s = true) : redact s = s :=
  redactGo_id s.length s le_rfl h

/-! ## Data model -/

/-- The call descriptor returned by `getCurrentCall` from `@/lib/cli-args`. -/
structure Call where
  name : Str
  args : Str

/-- The environment metadata consumed from `ENV` in `@/lib/utils`:
`ENV.meta.osx`, `ENV.meta.nodejs`, `ENV.meta.alfred`, `ENV.workflow.version`
and `ENV.workflow.uid`. -/
structure Env where
  osx : Str
  nodejs : Str
  alfred : Str
  version : Str
  uid : Str

/-- A plain JavaScript `Error` value as consumed by this module: its `name`,
`message` and (possibly undefined) `stack` properties. -/
structure JSError where
  name : Str
  message : Str
  stack : Option Str

/-- The `AlfredErrorOptions` interface: `{ isSafe?, title?, error? }`. -/
structure AlfredErrorOptions where
  isSafe : Option Bool
  title : Option Str
  error : Option JSError

/-- An `AlfredError` value: the `Error` properties plus the fields assigned
in the constructor. -/
structure AlfredError where
  name : Str
  message : Str
  stack : Option Str
  commonType : Str
  description : Str
  isSafe : Bool
  title : Str

/-- An input to `funnelError`/`errorDetail`: either a plain `Error` or an
`AlfredError` (the `error instanceof AlfredError` distinction). -/
inductive ErrValue where
  | plain (e : JSError)
  | alfred (e : AlfredError)

def ErrValue.message : ErrValue → Str
  | .plain e => e.message
  | .alfred e => e.message

def ErrValue.stack : ErrValue → Option Str
  | .plain e => e.stack
  | .alfred e => e.stack

/-- `error instanceof AlfredError ? error.title : error.name` (line 72). -/
def ErrValue.titleOrName : ErrValue → Str
  | .plain e => e.name
  | .alfred e => e.title

/-! ## The `AlfredError` constructor (lines 36–53) -/

/-- Which object `Error.captureStackTrace` is applied to:
`options?.error ?? this`. -/
inductive CaptureTarget where
  | self
  | cause
deriving DecidableEq

/-- The global side effects the constructor performs, in order:
`Error.stackTraceLimit = 50` and `Error.captureStackTrace(target, AlfredError)`. -/
inductive ConstructEffect where
  | setStackTraceLimit (n : Nat)
  | captureStack (t : CaptureTarget)
deriving DecidableEq

structure ConstructResult where
  err : AlfredError
  effects : List ConstructEffect

/-- The wrapped cause's name, when a cause was supplied:
`options?.error?.name`. -/
def causeNameOf (options : Option AlfredErrorOptions) : Option Str :=
  (options.bind AlfredErrorOptions.error).map JSError.name

/-- The `AlfredError` constructor. `siteStack` stands for the stack trace the
runtime captures at the construction site. Field assignments follow lines
45–49; the effect list records lines 51–52 in program order. JavaScript
truthiness of `options?.error?.name` means the name suffix is added exactly
when a cause with a non-empty name is present. -/
def mkAlfredError (commonType description : Str)
    (options : Option AlfredErrorOptions) (siteStack : Str) : ConstructResult :=
  let baseName := commonType
  let name :=
    match options.bind AlfredErrorOptions.error with
    | some cause =>
      if cause.name = [] then baseName
      else baseName ++ " (".data ++ cause.name ++ ")".data
    | none => baseName
  { err :=
      { name := name
        message := description
        stack := some siteStack
        commonType := commonType
        description := description
        isSafe := (options.bind AlfredErrorOptions.isSafe).getD false
        title :=
          (options.bind AlfredErrorOptions.title).getD
            "Oops, this is not supposed to happen".data }
    effects :=
      [ ConstructEffect.setStackTraceLimit 50,
        ConstructEffect.captureStack
          (match options.bind AlfredErrorOptions.error with
           | some _ => CaptureTarget.cause
           | none => CaptureTarget.self) ] }

/-! ## Call-context resolution -/

/-- `getCurrentCall()` from `@/lib/cli-args`: reports the currently executing
call, and throws when no managed invocation is active. The resolver state is
the `Option Call`; `none` makes the call throw. -/
def getCurrentCall (resolver : Option Call) : Except Unit Call :=
  match resolver with
  | some c => Except.ok c
  | none => Except.error ()

/-- The `try`/`catch` at lines 64–71: on failure substitute
`{ args: '<unknown>' }` (the object literal has no `name` property; only
`args` is read afterwards, so `name` is modelled as empty). -/
def resolveCallOrUnknown (resolver : Option Call) : Call :=
  match getCurrentCall resolver with
  | Except.ok c => c
  | Except.error _ => { name := [], args := "<unknown>".data }

/-- The whitelist test at lines 107–111. -/
def callNameWhitelisted (c : Call) : Bool :=
  c.name == "parse".data || c.name == "read".data || c.name == "readSettings".data

/-- `isUserFacingMethod` (lines 98–112): `true` when context resolution
fails, otherwise the whitelist test. -/
def isUserFacingMethod (resolver : Option Call) : Bool :=
  match getCurrentCall resolver with
  | Except.error _ => true
  | Except.ok call => callNameWhitelisted call

/-! ## The diagnostic report (`errorDetail`, lines 63–96) -/

/-- `'\n'.join` of a JavaScript array, i.e. `Array.prototype.join('\n')`. -/
def joinNL : List Str → Str
  | [] => []
  | [x] => x
  | x :: xs => x ++ '\n' :: joinNL xs

/-- The array literal of lines 76–91, for an already-resolved call.
`cleanStack` models the external `clean-stack` package applied to the
(possibly undefined) `stack` property with `{ pretty: true }`. -/
def reportLines (cleanStack : Option Str → Str) (env : Env) (e : ErrValue)
    (call : Call) : List Str :=
  [ "ALFRED WORKFLOW TODOIST".data,
    "----------------------------------------".data,
    "title: ".data ++ e.titleOrName,
    "description: ".data ++ e.message,
    [],
    "os: macOS ".data ++ env.osx,
    "query: ".data ++ call.args,
    "node.js: ".data ++ env.nodejs,
    "alfred: ".data ++ env.alfred,
    "workflow: ".data ++ env.version,
    "workflow-id: ".data ++ env.uid,
    '\n' :: ("Stack: ".data ++ cleanStack e.stack) ]

/-- `errorDetail` (lines 63–96): resolve the call (catching a failed
resolution), join the report lines with newlines, then hide tokens. -/
def errorDetail (cleanStack : Option Str → Str) (resolver : Option Call)
    (env : Env) (e : ErrValue) : Str :=
  redact (joinNL (reportLines cleanStack env e (resolveCallOrUnknown resolver)))

/-! ## The issue link (`createIssueLink`, lines 114–137) -/

/-- Characters kept verbatim by `encodeURIComponent`:
ASCII alphanumerics and `- _ . ! ~ * ' ( )`. -/
def isUnreserved (c : Char) : Bool :=
  c.isAlphanum ||
    c ∈ ['-', '_', '.', '!', '~', '*', Char.ofNat 39, '(', ')']

def hexDigitChar (n : Nat) : Char :=
  if n < 10 then Char.ofNat (48 + n) else Char.ofNat (87 + n)

/-- Fixed-width big-endian hexadecimal rendering of a natural number. -/
def toHexN : Nat → Nat → Str
  | 0, _ => []
  | w + 1, v => toHexN w (v / 16) ++ [hexDigitChar (v % 16)]

def hexVal (c : Char) : Nat :=
  if c.toNat ≤ 57 then c.toNat - 48 else c.toNat - 87

def ofHexDigits (s : Str) : Nat :=
  s.foldl (fun a c => 16 * a + hexVal c) 0

/-- Modelled from the spec: percent-encoding of a URL query parameter
(§4.5 "all parameters percent-encoded"; the `new-github-issue-url` package
is not part of this repository's sources). Unreserved characters are kept;
every other character is written as a `%`-escape. The escape is modelled as
a fixed-width six-hex-digit code point, which covers all of Unicode and
makes the encoding injective. -/
def percentEncodeChar (c : Char) : Str :=
  if isUnreserved c then [c] else '%' :: toHexN 6 c.toNat

def percentEncode (s : Str) : Str :=
  (s.map percentEncodeChar).flatten

/-- Modelled from the spec: the inverse scanner for `percentEncode`. -/
def percentDecode (s : Str) : Str :=
  match s with
  | [] => []
  | c :: cs =>
    if c = '%' then Char.ofNat (ofHexDigits (cs.take 6)) :: percentDecode (cs.drop 6)
    else c :: percentDecode cs
termination_by s.length
decreasing_by
  · simp [List.length_drop]; omega
  · simp

/-- Modelled from the spec: `new-github-issue-url` (§4.5) builds a URL
against the fixed repository coordinate with the percent-encoded `body` and
`title` query parameters; an undefined `title` is omitted. -/
def newGithubIssueUrl (user repo : Str) (body : Str) (title : Option Str) : Str :=
  "https://github.com/".data ++ user ++ "/".data ++ repo ++
    "/issues/new?body=".data ++ percentEncode body ++
    (match title with
     | some t => "&title=".data ++ percentEncode t
     | none => [])

/-- `'a\nb'.split('\n')[0]`: the characters before the first newline. -/
def firstLine (s : Str) : Str := s.takeWhile (fun c => !(c = '\n'))

/-- The body template of lines 118–134. -/
def issueBody (cleanStack : Option Str → Str) (resolver : Option Call)
    (env : Env) (e : ErrValue) : Str :=
  joinNL
    [ "### Description".data,
      [],
      "<A clear and concise description of what the bug is.>".data,
      [],
      "### Steps to reproduce behavior".data,
      [],
      "<Please describe what you did here.>".data,
      [],
      "### Expected behavior".data,
      [],
      "<A clear and concise description of what you expected to happen.>".data,
      [],
      "### Error logs".data,
      [],
      errorDetail cleanStack resolver env e ]

/-- `createIssueLink` (lines 114–137). -/
def createIssueLink (cleanStack : Option Str → Str) (resolver : Option Call)
    (env : Env) (e : ErrValue) : Str :=
  newGithubIssueUrl "moranje".data "alfred-workflow-todoist".data
    (issueBody cleanStack resolver env e) (e.stack.map firstLine)

/-! ## The two output channels -/

/-- The payload `createCall({name, args})` serializes into an item's `arg`
(modelled from the spec at its interface: an action descriptor). -/
structure CallArg where
  name : Str
  args : Str

/-- A workflow list `Item` with the fields this module sets. -/
structure Item where
  arg : CallArg
  title : Str
  subtitle : Str
  valid : Bool
  copyText : Option Str
  quicklookurl : Option Str

/-- A notification payload `{subtitle, message, url}`. -/
structure Notification where
  subtitle : Str
  message : Str
  url : Str

/-- What a presenter emits: one written item list or one notification. -/
inductive Output where
  | list (items : List Item)
  | notify (n : Notification)

/-- `workflowList.clear()`. -/
def wfClear (_ : List Item) : List Item := []

/-- `workflowList.addItem(item)`. -/
def wfAddItem (l : List Item) (i : Item) : List Item := l ++ [i]

/-- `workflowList.write()`. -/
def wfWrite (l : List Item) : Output := Output.list l

def projectUrl : Str := "https://github.com/moranje/alfred-workflow-todoist".data

/-- The item built in `listProblem` (lines 144–155). -/
def problemItem (e : AlfredError) : Item :=
  { arg := { name := "openUrl".data, args := projectUrl }
    title := e.title
    subtitle := e.message
    valid := true
    copyText := some (e.name ++ ": ".data ++ e.message)
    quicklookurl := none }

/-- The item built in `listBug` (lines 172–178); the `arg` and the
`quicklookurl` each come from their own `createIssueLink(error)` call. -/
def bugItem (argLink quicklookLink : Str) : Item :=
  { arg := { name := "openUrl".data, args := argLink }
    title := "Oops, something is not right".data
    subtitle := "Create a bug report".data
    valid := true
    copyText := none
    quicklookurl := some quicklookLink }

/-- `listProblem` (lines 139–165), threading the pre-existing list state. -/
def listProblem (resolver : Option Call) (prior : List Item)
    (e : AlfredError) : Output :=
  if isUserFacingMethod resolver then
    wfWrite (wfAddItem (wfClear prior) (problemItem e))
  else
    Output.notify { subtitle := e.title, message := e.message, url := projectUrl }

/-- `listBug` (lines 167–188). -/
def listBug (cleanStack : Option Str → Str) (resolver : Option Call)
    (env : Env) (prior : List Item) (e : ErrValue) : Output :=
  if isUserFacingMethod resolver then
    wfWrite (wfAddItem (wfClear prior)
      (bugItem (createIssueLink cleanStack resolver env e)
        (createIssueLink cleanStack resolver env e)))
  else
    Output.notify
      { subtitle := "Oops, something is not right".data
        message := "Click to create a bug report".data
        url := createIssueLink cleanStack resolver env e }

/-- The result of one funnel invocation: the errors handed to
`logger().error` and the single presentation side effect. -/
structure FunnelResult where
  logEvents : List ErrValue
  output : Output

/-- `unrecoverableError` (lines 190–194). -/
def unrecoverableError (cleanStack : Option Str → Str) (resolver : Option Call)
    (env : Env) (prior : List Item) (e : ErrValue) : FunnelResult :=
  { logEvents := [e], output := listBug cleanStack resolver env prior e }

/-- `funnelError` (lines 203–211). -/
def funnelError (cleanStack : Option Str → Str) (resolver : Option Call)
    (env : Env) (prior : List Item) (e : ErrValue) : FunnelResult :=
  match e with
  | ErrValue.alfred a =>
    if a.isSafe then { logEvents := [e], output := listProblem resolver prior a }
    else unrecoverableError cleanStack resolver env prior e
  | ErrValue.plain _ => unrecoverableError cleanStack resolver env prior e

/-! ## Exception-explicit variants

The only fallible operation the module performs is `getCurrentCall()`; these
variants thread its exception through every function that (transitively)
calls it, with `Except.tryCatch` exactly where the source has `try`/`catch`
(lines 65–71 and 100–105). Comparing them with the pure definitions above
shows the funnel can never raise. -/

def errorDetailE (cleanStack : Option Str → Str) (resolver : Option Call)
    (env : Env) (e : ErrValue) : Except Unit Str := do
  let call ← Except.tryCatch (getCurrentCall resolver)
    (fun _ => pure { name := [], args := "<unknown>".data })
  pure (redact (joinNL (reportLines cleanStack env e call)))

def isUserFacingMethodE (resolver : Option Call) : Except Unit Bool :=
  Except.tryCatch
    (do
      let call ← getCurrentCall resolver
      pure (callNameWhitelisted call))
    (fun _ => pure true)

def createIssueLinkE (cleanStack : Option Str → Str) (resolver : Option Call)
    (env : Env) (e : ErrValue) : Except Unit Str := do
  let detail ← errorDetailE cleanStack resolver env e
  pure (newGithubIssueUrl "moranje".data "alfred-workflow-todoist".data
    (joinNL
      [ "### Description".data,
        [],
        "<A clear and concise description of what the bug is.>".data,
        [],
        "### Steps to reproduce behavior".data,
        [],
        "<Please describe what you did here.>".data,
        [],
        "### Expected behavior".data,
        [],
        "<A clear and concise description of what you expected to happen.>".data,
        [],
        "### Error logs".data,
        [],
        detail ])
    (e.stack.map firstLine))

def listProblemE (resolver : Option Call) (prior : List Item)
    (e : AlfredError) : Except Unit Output := do
  let userFacing ← isUserFacingMethodE resolver
  if userFacing then
    pure (wfWrite (wfAddItem (wfClear prior) (problemItem e)))
  else
    pure (Output.notify { subtitle := e.title, message := e.message, url := projectUrl })

def listBugE (cleanStack : Option Str → Str) (resolver : Option Call)
    (env : Env) (prior : List Item) (e : ErrValue) : Except Unit Output := do
  let userFacing ← isUserFacingMethodE resolver
  if userFacing then do
    let argLink ← createIssueLinkE cleanStack resolver env e
    let quicklookLink ← createIssueLinkE cleanStack resolver env e
    pure (wfWrite (wfAddItem (wfClear prior) (bugItem argLink quicklookLink)))
  else do
    let link ← createIssueLinkE cleanStack resolver env e
    pure (Output.notify
      { subtitle := "Oops, something is not right".data
        message := "Click to create a bug report".data
        url := link })

def unrecoverableErrorE (cleanStack : Option Str → Str) (resolver : Option Call)
    (env : Env) (prior : List Item) (e : ErrValue) : Except Unit FunnelResult := do
  let output ← listBugE cleanStack resolver env prior e
  pure { logEvents := [e], output := output }

def funnelErrorE (cleanStack : Option Str → Str) (resolver : Option Call)
    (env : Env) (prior : List Item) (e : ErrValue) : Except Unit FunnelResult :=
  match e with
  | ErrValue.alfred a =>
    if a.isSafe then do
      let output ← listProblemE resolver prior a
      pure { logEvents := [e], output := output }
    else unrecoverableErrorE cleanStack resolver env prior e
  | ErrValue.plain _ => unrecoverableErrorE cleanStack resolver env prior e

/-! ## Concrete fixtures used to instantiate theorems -/

/-- A concrete stand-in for the external `clean-stack` function. -/
def cleanStack0 : Option Str → Str := fun s => s.getD []

def env0 : Env :=
  { osx := "11".data, nodejs := "16".data, alfred := "4".data,
    version := "7".data, uid := "uid".data }

def parseCall : Call := { name := "parse".data, args := "todo list".data }

def fetchCall : Call := { name := "fetchTasks".data, args := "x".data }

def cause0 : JSError :=
  { name := "TypeError".data, message := "nope".data,
    stack := some "TypeError: nope".data }

def options0 : AlfredErrorOptions :=
  { isSafe := some true, title := none, error := some cause0 }

def optionsWithCause : AlfredErrorOptions :=
  { isSafe := none, title := none, error := some cause0 }

def safeAlfred0 : AlfredError :=
  { name := "Parser error".data, message := "could not parse".data,
    stack := some "Parser error: could not parse".data,
    commonType := "Parser error".data, description := "could not parse".data,
    isSafe := true, title := "Oops".data }

def unsafeAlfred0 : AlfredError :=
  { name := "External error".data, message := "boom".data,
    stack := some "External error: boom".data,
    commonType := "External error".data, description := "boom".data,
    isSafe := false, title := "Oops".data }

def plain0 : ErrValue :=
  ErrValue.plain
    { name := "Error".data, message := "boom".data,
      stack := some "Error: boom\nat x".data }

/-! ## Helper lemmas about the constructor -/

theorem mk_name_of_cause {ct desc : Str} {opts : Option AlfredErrorOptions}
    {st n : Str} (hn : causeNameOf opts = some n) (hne : n ≠ []) :
    (mkAlfredError ct desc opts st).err.name =
      ct ++ " (".data ++ n ++ ")".data := by
  rcases hopt : opts.bind AlfredErrorOptions.error with _ | cause
  · simp [causeNameOf, hopt] at hn
  · simp only [causeNameOf, hopt, Option.map_some'] at hn
    simp only [Option.some.injEq] at hn
    subst hn
    simp [mkAlfredError, hopt, hne]

theorem mk_name_of_no_cause {ct desc : Str} {opts : Option AlfredErrorOptions}
    {st : Str} (h : causeNameOf opts = none ∨ causeNameOf opts = some []) :
    (mkAlfredError ct desc opts st).err.name = ct := by
  rcases hopt : opts.bind AlfredErrorOptions.error with _ | cause
  · simp [mkAlfredError, hopt]
  · simp only [causeNameOf, hopt, Option.map_some'] at h
    rcases h with h | h
    · simp at h
    · simp only [Option.some.injEq] at h
      simp [mkAlfredError, hopt, h]

/-! ## Claim theorems -/

/-- C3: `isUserFacingMethod()` returns true if and only if the resolved call
name is in the fixed whitelist `{parse, read, readSettings}`, and it returns
true whenever context resolution fails (the resolver is unavailable). -/
theorem isUserFacingMethod_iff (res : Option Call) :
    isUserFacingMethod res = true ↔
      (res = none ∨ ∃ c, res = some c ∧
        (c.name = "parse".data ∨ c.name = "read".data ∨
          c.name = "readSettings".data)) := by
  cases res with
  | none => simp [isUserFacingMethod, getCurrentCall]
  | some c =>
    simp only [isUserFacingMethod, getCurrentCall, callNameWhitelisted,
      Bool.or_eq_true, beq_iff_eq, Option.some.injEq, reduceCtorEq, false_or]
    constructor
    · rintro ((h | h) | h) <;> exact ⟨c, rfl, by tauto⟩
    · rintro ⟨c', hc, h⟩
      cases hc
      tauto

theorem isUserFacingMethodE_ok (res : Option Call) :
    isUserFacingMethodE res = Except.ok (isUserFacingMethod res) := by
  cases res <;> rfl

theorem errorDetailE_ok (cs : Option Str → Str) (res : Option Call)
    (env : Env) (e : ErrValue) :
    errorDetailE cs res env e = Except.ok (errorDetail cs res env e) := by
  cases res <;> rfl

theorem createIssueLinkE_ok (cs : Option Str → Str) (res : Option Call)
    (env : Env) (e : ErrValue) :
    createIssueLinkE cs res env e = Except.ok (createIssueLink cs res env e) := by
  cases res <;> rfl

theorem listProblemE_ok (res : Option Call) (prior : List Item)
    (a : AlfredError) :
    listProblemE res prior a = Except.ok (listProblem res prior a) := by
  rw [listProblemE, isUserFacingMethodE_ok]
  show (if isUserFacingMethod res then _ else _ : Except Unit Output) = _
  rw [listProblem]
  split <;> rfl

theorem listBugE_ok (cs : Option Str → Str) (res : Option Call) (env : Env)
    (prior : List Item) (e : ErrValue) :
    listBugE cs res env prior e = Except.ok (listBug cs res env prior e) := by
  rw [listBugE, isUserFacingMethodE_ok]
  show (if isUserFacingMethod res then _ else _ : Except Unit Output) = _
  rw [listBug]
  split
  · rw [createIssueLinkE_ok]
    rfl
  · rw [createIssueLinkE_ok]
    rfl

/-- C5: for every input error — its `stack` property defined or not — and
every resolver state, `funnelError` runs to completion: the
exception-explicit embedding never returns an error, and agrees with the
total embedding.  It is the terminal handler: the input error only flows
into the log and the presentation, never out. -/
theorem funnelError_never_raises (cs : Option Str → Str) (res : Option Call)
    (env : Env) (prior : List Item) (e : ErrValue) :
    funnelErrorE cs res env prior e = Except.ok (funnelError cs res env prior e) := by
  cases e with
  | plain p =>
    rw [funnelErrorE, funnelError, unrecoverableErrorE, unrecoverableError,
      listBugE_ok]
    rfl
  | alfred a =>
    by_cases ha : a.isSafe
    · rw [funnelErrorE, funnelError]
      rw [if_pos ha, if_pos ha, listProblemE_ok]
      rfl
    · rw [funnelErrorE, funnelError]
      rw [if_neg ha, if_neg ha, unrecoverableErrorE, unrecoverableError,
        listBugE_ok]
      rfl

/-- C6 counterexample: constructing an `AlfredError` with a wrapped cause
applies `Error.captureStackTrace` to the cause, not to the constructed
error, and every construction (here a second one without a cause) performs
the `Error.stackTraceLimit = 50` write — it is done per construction, not
once at initialization. -/
theorem mkAlfredError_capture_cex :
    (mkAlfredError "External error".data "boom".data (some optionsWithCause)
        "site".data).effects =
      [ConstructEffect.setStackTraceLimit 50,
        ConstructEffect.captureStack CaptureTarget.cause] ∧
    CaptureTarget.cause ≠ CaptureTarget.self ∧
    ConstructEffect.setStackTraceLimit 50 ∈
      (mkAlfredError "Parser error".data "x".data none "s2".data).effects := by
  refine ⟨by decide, by decide, by decide⟩

/-- C6 amended: every `AlfredError` construction performs, in order, the
idempotent global write `Error.stackTraceLimit = 50` and then captures a
stack trace rooted at the construction site — on the wrapped cause when one
was supplied in the options, otherwise on the constructed error itself. -/
theorem mkAlfredError_effects (ct desc : Str) (opts : Option AlfredErrorOptions)
    (st : Str) :
    (mkAlfredError ct desc opts st).effects =
      [ConstructEffect.setStackTraceLimit 50,
        ConstructEffect.captureStack
          (if (opts.bind AlfredErrorOptions.error).isSome then CaptureTarget.cause
           else CaptureTarget.self)] := by
  rcases hopt : opts.bind AlfredErrorOptions.error <;> simp [mkAlfredError, hopt]

/-- C9: construction is total and yields: message (and description) equal to
the given description; display name equal to the kind, suffixed with
` (causeName)` exactly when a wrapped cause carrying a non-empty name was
supplied; the default title when no title option is given; and `isSafe`
defaulting to `false` when absent. -/
theorem mkAlfredError_fields (ct desc : Str) (opts : Option AlfredErrorOptions)
    (st : Str) :
    (mkAlfredError ct desc opts st).err.message = desc ∧
    (mkAlfredError ct desc opts st).err.description = desc ∧
    (causeNameOf opts = none → (mkAlfredError ct desc opts st).err.name = ct) ∧
    (causeNameOf opts = some [] → (mkAlfredError ct desc opts st).err.name = ct) ∧
    (∀ n, causeNameOf opts = some n → n ≠ [] →
      (mkAlfredError ct desc opts st).err.name = ct ++ " (".data ++ n ++ ")".data) ∧
    (opts.bind AlfredErrorOptions.title = none →
      (mkAlfredError ct desc opts st).err.title =
        "Oops, this is not supposed to happen".data) ∧
    (∀ t, opts.bind AlfredErrorOptions.title = some t →
      (mkAlfredError ct desc opts st).err.title = t) ∧
    (opts.bind AlfredErrorOptions.isSafe = none →
      (mkAlfredError ct desc opts st).err.isSafe = false) ∧
    (∀ b, opts.bind AlfredErrorOptions.isSafe = some b →
      (mkAlfredError ct desc opts st).err.isSafe = b) := by
  refine ⟨rfl, rfl, fun h => mk_name_of_no_cause (Or.inl h),
    fun h => mk_name_of_no_cause (Or.inr h),
    fun n hn hne => mk_name_of_cause hn hne, ?_, ?_, ?_, ?_⟩
  · intro h
    simp [mkAlfredError, h]
  · intro t h
    simp [mkAlfredError, h]
  · intro h
    simp [mkAlfredError, h]
  · intro b h
    simp [mkAlfredError, h]

/-- C9 witness: a concrete construction with a wrapped cause named
`TypeError` yields the suffixed display name. -/
theorem mkAlfredError_fields_witness :
    (mkAlfredError "External error".data "boom".data (some options0)
        "site".data).err.name =
      "External error".data ++ " (".data ++ "TypeError".data ++ ")".data :=
  (mkAlfredError_fields "External error".data "boom".data (some options0)
      "site".data).2.2.2.2.1 "TypeError".data rfl (by decide)

/-- C10: the `commonType` field always holds the unsuffixed kind the error
was constructed from, and no operation of the module changes it (errors are
values consumed read-only); in particular when a cause name is appended to
the display name the two fields differ, and the taxonomy kind stays
recoverable from `commonType`. -/
theorem commonType_preserved (ct desc : Str) (opts : Option AlfredErrorOptions)
    (st : Str) :
    (mkAlfredError ct desc opts st).err.commonType = ct ∧
    (∀ n, causeNameOf opts = some n → n ≠ [] →
      (mkAlfredError ct desc opts st).err.name ≠
        (mkAlfredError ct desc opts st).err.commonType) := by
  refine ⟨rfl, fun n hn hne heq => ?_⟩
  rw [mk_name_of_cause hn hne] at heq
  have hct : (mkAlfredError ct desc opts st).err.commonType = ct := rfl
  rw [hct] at heq
  have := congrArg List.length heq
  simp [List.length_append] at this

/-- C2: for every error, resolver state, environment and stack cleaner, the
diagnostic report returned by `errorDetail` contains no substring of forty
consecutive hex digits: the redaction replaces each such run with the
`<token hidden>` placeholder after full report assembly, and the returned
string — the one the issue-link builder embeds — is clean. -/
theorem errorDetail_no_token_run (cs : Option Str → Str) (res : Option Call)
    (env : Env) (e : ErrValue) :
    ¬ hasHexRun40 (errorDetail cs res env e) := by
  apply noRun40_sound
  rw [errorDetail]
  exact (redact_ok _).1

/-- Spec-side rendering of C4's "fixed line sequence": the thirteen lines
the claim lists — banner, separator, title, description, blank, os, query,
node.js, alfred, workflow, workflow-id, blank, stack — joined by newlines,
with the raw field values interpolated (title is the error's `title` for an
`AlfredError` and its `name` otherwise; query is the resolved call's
arguments or the unknown marker). -/
def claimedReportC4 (cs : Option Str → Str) (res : Option Call) (env : Env)
    (e : ErrValue) : Str :=
  joinNL
    [ "ALFRED WORKFLOW TODOIST".data,
      "----------------------------------------".data,
      "title: ".data ++ e.titleOrName,
      "description: ".data ++ e.message,
      [],
      "os: macOS ".data ++ env.osx,
      "query: ".data ++ (resolveCallOrUnknown res).args,
      "node.js: ".data ++ env.nodejs,
      "alfred: ".data ++ env.alfred,
      "workflow: ".data ++ env.version,
      "workflow-id: ".data ++ env.uid,
      [],
      "Stack: ".data ++ cs e.stack ]

theorem assembled_eq_claimed (cs : Option Str → Str) (res : Option Call)
    (env : Env) (e : ErrValue) :
    joinNL (reportLines cs env e (resolveCallOrUnknown res)) =
      claimedReportC4 cs res env e := by
  simp [reportLines, claimedReportC4, joinNL]

set_option maxRecDepth 4000 in
/-- C4 counterexample: for an error whose message is forty hex digits the
report is not the raw line sequence — the redaction of C2 has rewritten the
description line — so the claim's "for every error" reading fails. -/
theorem errorDetail_raw_lines_cex :
    errorDetail cleanStack0 (some parseCall) env0
        (ErrValue.plain
          { name := "Error".data, message := List.replicate 40 'a',
            stack := some [] }) ≠
      claimedReportC4 cleanStack0 (some parseCall) env0
        (ErrValue.plain
          { name := "Error".data, message := List.replicate 40 'a',
            stack := some [] }) := by
  decide

/-- C4 amended: whenever the assembled report contains no forty-hex-digit
run (so the redaction is the identity), the diagnostic report is exactly the
fixed line sequence of the claim; in general it is that sequence with the
token redaction applied. -/
theorem errorDetail_fixed_lines (cs : Option Str → Str) (res : Option Call)
    (env : Env) (e : ErrValue)
    (h : ¬ hasHexRun40 (claimedReportC4 cs res env e)) :
    errorDetail cs res env e = claimedReportC4 cs res env e := by
  have hb : noRun40 (claimedReportC4 cs res env e) = true := by
    cases hx : noRun40 (claimedReportC4 cs res env e)
    · exact absurd (noRun40_complete hx) h
    · rfl
  rw [errorDetail, assembled_eq_claimed, redact_id hb]

/-- C4 witness: on a concrete error and environment with no token-like run,
the report is exactly the claimed line sequence. -/
theorem errorDetail_fixed_lines_witness :
    errorDetail cleanStack0 (some parseCall) env0 plain0 =
      claimedReportC4 cleanStack0 (some parseCall) env0 plain0 :=
  errorDetail_fixed_lines cleanStack0 (some parseCall) env0 plain0
    (noRun40_sound (by decide))

/-- The notification message of an output (empty for a written list). -/
def notificationMessageOf : Output → Str
  | Output.notify n => n.message
  | Output.list _ => []

/-- C7 counterexample: in a non-interactive context (`fetchTasks` is not
whitelisted) the notification emitted by `listBug` carries the message
`Click to create a bug report`, which is not the interactive item's fixed
copy `Create a bug report` — so "the same fixed copy" fails as stated. -/
theorem listBug_copy_cex :
    notificationMessageOf
        (listBug cleanStack0 (some fetchCall) env0 [] plain0) =
      "Click to create a bug report".data ∧
    "Click to create a bug report".data ≠ "Create a bug report".data := by
  exact ⟨rfl, by decide⟩

/-- C7 amended: in an interactive context `listBug` clears the list and
appends exactly one selectable item with fixed copy
`Oops, something is not right` / `Create a bug report`, whose action and
quick-look preview both point at the built issue URL; in a non-interactive
context it emits a notification with subtitle
`Oops, something is not right`, message `Click to create a bug report`
(similar, but not identical, copy) and the generated issue link. -/
theorem listBug_spec (cs : Option Str → Str) (res : Option Call) (env : Env)
    (prior : List Item) (e : ErrValue) :
    listBug cs res env prior e =
      if isUserFacingMethod res then
        Output.list
          [ { arg := { name := "openUrl".data,
                       args := createIssueLink cs res env e }
              title := "Oops, something is not right".data
              subtitle := "Create a bug report".data
              valid := true
              copyText := none
              quicklookurl := some (createIssueLink cs res env e) } ]
      else
        Output.notify
          { subtitle := "Oops, something is not right".data
            message := "Click to create a bug report".data
            url := createIssueLink cs res env e } := by
  rw [listBug]
  split <;> rfl

theorem createIssueLink_length (cs : Option Str → Str) (res : Option Call)
    (env : Env) (e : ErrValue) : 67 ≤ (createIssueLink cs res env e).length := by
  have h1 : ("https://github.com/".data).length = 19 := by decide
  have h2 : ("moranje".data).length = 7 := by decide
  have h3 : ("/".data).length = 1 := by decide
  have h4 : ("alfred-workflow-todoist".data).length = 23 := by decide
  have h5 : ("/issues/new?body=".data).length = 17 := by decide
  rw [createIssueLink, newGithubIssueUrl.eq_def]
  split <;> simp [List.length_append, h1, h2, h3, h4, h5]

theorem createIssueLink_ne_projectUrl (cs : Option Str → Str)
    (res : Option Call) (env : Env) (e : ErrValue) :
    createIssueLink cs res env e ≠ projectUrl := by
  intro h
  have hl := congrArg List.length h
  have h50 : projectUrl.length = 50 := by decide
  have h67 := createIssueLink_length cs res env e
  omega

/-- Spec-side shape of a `listProblem` presentation for the safe error `a`:
either the single selectable item carrying the error's own title and
message and pointing at the project URL, or the project-URL notification
with that title and message. -/
def problemShapedFor (a : AlfredError) (o : Output) : Prop :=
  o = Output.list
      [ { arg := { name := "openUrl".data, args := projectUrl }
          title := a.title
          subtitle := a.message
          valid := true
          copyText := some (a.name ++ ": ".data ++ a.message)
          quicklookurl := none } ] ∨
  o = Output.notify { subtitle := a.title, message := a.message, url := projectUrl }

/-- Spec-side shape of a `listBug` presentation for the issue link `link`:
either the single fixed-copy bug-report item pointing at `link`, or the
fixed-copy notification pointing at `link`. -/
def bugShapedFor (link : Str) (o : Output) : Prop :=
  o = Output.list
      [ { arg := { name := "openUrl".data, args := link }
          title := "Oops, something is not right".data
          subtitle := "Create a bug report".data
          valid := true
          copyText := none
          quicklookurl := some link } ] ∨
  o = Output.notify
      { subtitle := "Oops, something is not right".data
        message := "Click to create a bug report".data
        url := link }

/-- C1: for every context (interactive or not) and pre-existing list state,
`funnelError` produces exactly one presentation, and it is
`listProblem`-shaped — never `listBug`-shaped — precisely when the error is
an `AlfredError` with `isSafe = true`; in every other case (an unsafe
`AlfredError`, or a plain error) it is `listBug`-shaped and never
`listProblem`-shaped. -/
theorem funnelError_classifies (cs : Option Str → Str) (res : Option Call)
    (env : Env) (prior : List Item) :
    (∀ a : AlfredError, a.isSafe = true →
      problemShapedFor a
          (funnelError cs res env prior (ErrValue.alfred a)).output ∧
      ¬ bugShapedFor (createIssueLink cs res env (ErrValue.alfred a))
          (funnelError cs res env prior (ErrValue.alfred a)).output) ∧
    (∀ a : AlfredError, a.isSafe = false →
      bugShapedFor (createIssueLink cs res env (ErrValue.alfred a))
          (funnelError cs res env prior (ErrValue.alfred a)).output ∧
      ∀ a' : AlfredError, ¬ problemShapedFor a'
          (funnelError cs res env prior (ErrValue.alfred a)).output) ∧
    (∀ p : JSError,
      bugShapedFor (createIssueLink cs res env (ErrValue.plain p))
          (funnelError cs res env prior (ErrValue.plain p)).output ∧
      ∀ a' : AlfredError, ¬ problemShapedFor a'
          (funnelError cs res env prior (ErrValue.plain p)).output) := by
  have hbugShape : ∀ e : ErrValue,
      bugShapedFor (createIssueLink cs res env e)
        (listBug cs res env prior e) := by
    intro e
    rw [listBug]
    by_cases hu : isUserFacingMethod res
    · rw [if_pos hu]
      left
      rfl
    · rw [if_neg hu]
      right
      rfl
  have hbugNotProblem : ∀ (e : ErrValue) (a' : AlfredError),
      ¬ problemShapedFor a' (listBug cs res env prior e) := by
    intro e a' hshape
    rw [listBug] at hshape
    by_cases hu : isUserFacingMethod res
    · rw [if_pos hu] at hshape
      rcases hshape with h | h
      · simp [wfWrite, wfAddItem, wfClear, bugItem, Output.list.injEq,
          Item.mk.injEq] at h
      · simp [wfWrite, wfAddItem, wfClear, bugItem] at h
    · rw [if_neg hu] at hshape
      rcases hshape with h | h
      · simp at h
      · simp only [Output.notify.injEq, Notification.mk.injEq] at h
        exact createIssueLink_ne_projectUrl cs res env e h.2.2
  refine ⟨fun a ha => ?_, fun a ha => ?_, fun p => ?_⟩
  · have hout : (funnelError cs res env prior (ErrValue.alfred a)).output =
        listProblem res prior a := by
      simp [funnelError, ha]
    rw [hout]
    constructor
    · rw [listProblem]
      by_cases hu : isUserFacingMethod res
      · rw [if_pos hu]
        left
        rfl
      · rw [if_neg hu]
        right
        rfl
    · intro hshape
      rw [listProblem] at hshape
      by_cases hu : isUserFacingMethod res
      · rw [if_pos hu] at hshape
        rcases hshape with h | h
        · simp [wfWrite, wfAddItem, wfClear, problemItem, Output.list.injEq,
            Item.mk.injEq] at h
        · simp [wfWrite, wfAddItem, wfClear] at h
      · rw [if_neg hu] at hshape
        rcases hshape with h | h
        · simp at h
        · simp only [Output.notify.injEq, Notification.mk.injEq] at h
          exact createIssueLink_ne_projectUrl cs res env (ErrValue.alfred a)
            h.2.2.symm
  · have hout : (funnelError cs res env prior (ErrValue.alfred a)).output =
        listBug cs res env prior (ErrValue.alfred a) := by
      simp [funnelError, unrecoverableError, ha]
    rw [hout]
    exact ⟨hbugShape _, fun a' => hbugNotProblem _ a'⟩
  · have hout : (funnelError cs res env prior (ErrValue.plain p)).output =
        listBug cs res env prior (ErrValue.plain p) := by
      simp [funnelError, unrecoverableError]
    rw [hout]
    exact ⟨hbugShape _, fun a' => hbugNotProblem _ a'⟩

/-- C1 witness: a concrete safe `AlfredError` in an interactive context is
presented `listProblem`-shaped. -/
theorem funnelError_classifies_witness :
    problemShapedFor safeAlfred0
      (funnelError cleanStack0 (some parseCall) env0 []
        (ErrValue.alfred safeAlfred0)).output :=
  ((funnelError_classifies cleanStack0 (some parseCall) env0 []).1
      safeAlfred0 rfl).1

theorem toHexN_length (w v : Nat) : (toHexN w v).length = w := by
  induction w generalizing v with
  | zero => rfl
  | succ n ih => simp [toHexN, ih]

theorem hexVal_hexDigitChar : ∀ d, d < 16 → hexVal (hexDigitChar d) = d := by
  decide

theorem ofHexDigits_append (a : Str) (c : Char) :
    ofHexDigits (a ++ [c]) = 16 * ofHexDigits a + hexVal c := by
  simp [ofHexDigits, List.foldl_append]

theorem ofHexDigits_toHexN : ∀ w v, v < 16 ^ w → ofHexDigits (toHexN w v) = v := by
  intro w
  induction w with
  | zero =>
    intro v hv
    interval_cases v
    rfl
  | succ n ih =>
    intro v hv
    rw [toHexN, ofHexDigits_append,
      ih (v / 16) (by rw [Nat.div_lt_iff_lt_mul (by norm_num)]; rw [pow_succ] at hv; omega),
      hexVal_hexDigitChar (v % 16) (Nat.mod_lt _ (by norm_num))]
    omega

theorem char_toNat_lt (c : Char) : c.toNat < 16 ^ 6 := by
  rcases c.valid with h | ⟨_, h2⟩
  · exact Nat.lt_trans h (by norm_num)
  · exact Nat.lt_trans h2 (by norm_num)

theorem isUnreserved_ne_percent {c : Char} (h : isUnreserved c = true) :
    ¬ c = '%' := by
  intro he
  subst he
  exact absurd h (by decide)

theorem percentEncode_cons (c : Char) (s : Str) :
    percentEncode (c :: s) = percentEncodeChar c ++ percentEncode s := by
  simp [percentEncode]

/-- The percent-decoder is a left inverse of the percent-encoder. -/
theorem percentDecode_encode : ∀ s, percentDecode (percentEncode s) = s := by
  intro s
  induction s with
  | nil => simp [percentEncode, percentDecode]
  | cons c cs ih =>
    rw [percentEncode_cons, percentEncodeChar]
    by_cases hu : isUnreserved c
    · rw [if_pos hu]
      show percentDecode (c :: percentEncode cs) = c :: cs
      rw [percentDecode, if_neg (isUnreserved_ne_percent hu), ih]
    · rw [if_neg hu]
      show percentDecode ('%' :: (toHexN 6 c.toNat ++ percentEncode cs)) = c :: cs
      rw [percentDecode, if_pos rfl]
      generalize hx : toHexN 6 c.toNat = hx6
      have hlen : hx6.length = 6 := by rw [← hx, toHexN_length]
      rw [← hlen, List.take_left, List.drop_left, ← hx,
        ofHexDigits_toHexN 6 c.toNat (char_toNat_lt c), Char.ofNat_toNat, ih]

set_option maxRecDepth 8000 in
/-- C8: `createIssueLink` is pure (a function of the error, resolver state
and environment alone) and produces the URL of the fixed repository
coordinate whose percent-encoded `body` parameter decodes back to the issue
body — a markdown template containing the four fixed section headers in
order, with the last section populated with the diagnostic report — and
whose percent-encoded `title` parameter decodes back to the first line of
the error's stack. -/
theorem createIssueLink_structure (cs : Option Str → Str) (res : Option Call)
    (env : Env) (e : ErrValue) (s : Str) (hs : ErrValue.stack e = some s) :
    createIssueLink cs res env e =
      "https://github.com/".data ++ "moranje".data ++ "/".data ++
        "alfred-workflow-todoist".data ++ "/issues/new?body=".data ++
        percentEncode (issueBody cs res env e) ++
        ("&title=".data ++ percentEncode (firstLine s)) ∧
    percentDecode (percentEncode (issueBody cs res env e)) =
      issueBody cs res env e ∧
    (∃ gapA gapB gapC : Str,
      issueBody cs res env e =
        "### Description".data ++ gapA ++
          "### Steps to reproduce behavior".data ++ gapB ++
          "### Expected behavior".data ++ gapC ++
          ("### Error logs".data ++ '\n' :: '\n' :: errorDetail cs res env e)) ∧
    percentDecode (percentEncode (firstLine s)) = firstLine s := by
  refine ⟨?_, percentDecode_encode _, ?_, percentDecode_encode _⟩
  · rw [createIssueLink, hs]
    rfl
  · refine ⟨'\n' :: '\n' ::
      ("<A clear and concise description of what the bug is.>".data ++
        ['\n', '\n']),
      '\n' :: '\n' ::
      ("<Please describe what you did here.>".data ++ ['\n', '\n']),
      '\n' :: '\n' ::
      ("<A clear and concise description of what you expected to happen.>".data ++
        ['\n', '\n']), ?_⟩
    simp [issueBody, joinNL, List.append_assoc]

/-- C8 witness: on a concrete error with a defined stack, the encoded body
round-trips through the decoder. -/
theorem createIssueLink_structure_witness :
    percentDecode
        (percentEncode (issueBody cleanStack0 (some parseCall) env0 plain0)) =
      issueBody cleanStack0 (some parseCall) env0 plain0 :=
  (createIssueLink_structure cleanStack0 (some parseCall) env0 plain0
      "Error: boom\nat x".data rfl).2.1

/-- C10 witness: with a wrapped `TypeError` cause, the display name is
suffixed but `commonType` is not. -/
theorem commonType_preserved_witness :
    (mkAlfredError "External error".data "boom".data (some options0)
        "site".data).err.name ≠
      (mkAlfredError "External error".data "boom".data (some options0)
        "site".data).err.commonType :=
  (commonType_preserved "External error".data "boom".data (some options0)
      "site".data).2 "TypeError".data rfl (by decide)

end ErrorTs
